import Mathlib

/-!
Verification of the enq_tool survey-aggregation repository.

Shallow embedding of the label resolution, reshaping, crosstab and report
composition logic of the five Python sources (`for_debug.py`,
`app_cross_cal2.py`, `tableau_tate.py`, `opp.py`, `app2.py`).

Modelling conventions:
* CSV rows (dict-like records) are association lists `List (String × String)`;
  `dict.get(k, d)` becomes `(row.lookup k).getD d`.
* Python `str.strip` is `strTrim`, `str.lower` is `strLower`
  (all data of interest is ASCII-or-Japanese, where these agree).
* Python `s.split(',')` is `strSplit · ','` (both return `[""]` on `""`).
* `s.split('.')[0]` is `truncDot`, taking characters up to the first `'.'`
  (equivalent to the head of the split).
* A pandas cell that may be NaN is an `Option String`; `pd.isna` is `Option.isNone`
  and `str(cell)` of a NaN cell is the string "nan".
* Regex-based scanning of the metadata markdown is modelled line-orientedly:
  the document is a `List String` of its lines, fences and keys sit on their
  own lines (the format the parsers were written for).
-/

namespace EnqTool

/-! ### String primitives

Kernel-reducible re-implementations of the Python string operations the
sources use, written by structural recursion on the character list so that
concrete instances evaluate inside `decide`/`rfl` proofs. -/

/-- Whitespace in the sense of Python `str.strip`. -/
def isSpace (c : Char) : Bool := c == ' ' || c == '\t' || c == '\n' || c == '\r'

/-- Splits a character list at every occurrence of `sep` (Python `str.split`
semantics: the empty input yields one empty field). -/
def splitChars (sep : Char) : List Char → List (List Char)
  | [] => [[]]
  | c :: cs =>
    let r := splitChars sep cs
    if c == sep then [] :: r
    else
      match r with
      | [] => [[c]]
      | h :: t => (c :: h) :: t

/-- Models Python `s.split(sep)` for a one-character separator. -/
def strSplit (s : String) (sep : Char) : List String :=
  (splitChars sep s.data).map (fun l => ⟨l⟩)

/-- Models Python `s.strip()`. -/
def strTrim (s : String) : String :=
  ⟨((s.data.dropWhile isSpace).reverse.dropWhile isSpace).reverse⟩

/-- Models Python `s.lstrip()` / the whitespace run after a matched token. -/
def strTrimL (s : String) : String := ⟨s.data.dropWhile isSpace⟩

/-- Models Python `s.lower()`. -/
def strLower (s : String) : String := ⟨s.data.map Char.toLower⟩

/-- Models Python `s.startswith(t)`. -/
def strStarts (s t : String) : Bool := t.data.isPrefixOf s.data

/-- Models Python `s.endswith(t)`. -/
def strEnds (s t : String) : Bool := t.data.reverse.isPrefixOf s.data.reverse

/-- The first `k` characters of `s`. -/
def strTake (s : String) (k : Nat) : String := ⟨s.data.take k⟩

/-- Drops the first `k` characters of `s`. -/
def strDrop (s : String) (k : Nat) : String := ⟨s.data.drop k⟩

/-- The longest leading run of characters satisfying `p`. -/
def strTakeWhile (s : String) (p : Char → Bool) : String := ⟨s.data.takeWhile p⟩

/-- Models Python `sep.join(xs)`. -/
def strJoin (sep : String) : List String → String
  | [] => ""
  | [x] => x
  | x :: y :: rest => x ++ sep ++ strJoin sep (y :: rest)

/-- Character count of `s`. -/
def strLen (s : String) : Nat := s.data.length

/-- Models Python `s.split('.')[0]`: the characters of `s` before the first dot. -/
def truncDot (s : String) : String := ⟨s.data.takeWhile (fun c => c != '.')⟩


/-- Models `row.get(col, "")` on a `csv.DictReader` row. -/
def rowGet (row : List (String × String)) (col : String) : String :=
  (row.lookup col).getD ""

/-- Word characters of the `[\w\-]` character class used by the parsers. -/
def isWordChar (c : Char) : Bool := c.isAlphanum || c == '_' || c == '-'

/-- Models the fenced-block extraction `re.findall(r'```yaml(.*?)```', ...)`
of both metadata parsers, line-orientedly: a block opens at a line whose
trimmed form starts with "```yaml" and closes at the next fence line;
an unterminated block is not emitted (the regex requires the closing fence). -/
def extractBlocks (doc : List String) : List (List String) :=
  let step := fun (st : Bool × List String × List (List String)) (l : String) =>
    match st with
    | (false, _, acc) =>
      if strStarts (strTrim l) "```yaml" then (true, [], acc) else (false, [], acc)
    | (true, cur, acc) =>
      if strStarts (strTrim l) "```" then (false, [], acc ++ [cur])
      else (true, cur ++ [l], acc)
  (doc.foldl step (false, [], [])).2.2

/-- Models `re.search(key + r':\s*(<wordchars>+)', block)`: the first line of the
block whose trimmed form starts with `key` yields the word following it.
When `needQ` is set the word must start with 'Q' (the `Q[\w-]+` pattern). -/
def fieldValue (key : String) (wordChar : Char → Bool) (needQ : Bool)
    (block : List String) : Option String :=
  block.findSome? (fun l =>
    let t := strTrim l
    if strStarts t key then
      let v := strTakeWhile (strTrimL (strDrop t (strLen key))) wordChar
      if v != "" && (!needQ || strStarts v "Q") then some v else none
    else none)

/-- Strips one layer of surrounding double quotes (the parsers' optional `"?`). -/
def stripQuotes (s : String) : String :=
  let s1 := if strStarts s "\"" then strDrop s 1 else s
  if strEnds s1 "\"" then ⟨s1.data.dropLast⟩ else s1

/-- Models one `code: label` line of a `choices:` section: an indented line
holding a colon, split at the first colon, both sides trimmed and unquoted. -/
def choiceLine (l : String) : Option (String × String) :=
  if strStarts l " " || strStarts l "\t" then
    let t := strTrim l
    let k := strTakeWhile t (fun c => c != ':')
    if strLen k < strLen t && k != "" then
      some (stripQuotes (strTrim k), stripQuotes (strTrim (strDrop t (strLen k + 1))))
    else none
  else none

/-- Drops the lines of a block up to and including the `choices:` marker line. -/
def afterChoices : List String → List String
  | [] => []
  | l :: ls => if strStarts (strTrim l) "choices:" then ls else afterChoices ls

/-- Models the `choices` sub-section parsing of both metadata parsers:
the indented `code: label` pairs found after the `choices:` line. -/
def parseChoiceLines (block : List String) : List (String × String) :=
  (afterChoices block).filterMap choiceLine

/-! ## for_debug.py — fixed-axes report generator -/

namespace ForDebug

/-- The hard-coded override tables `area_age_maps` of `get_labels`. -/
def area_age_maps : List (String × List (String × String)) :=
  [("Q0-3", [("1", "日進"), ("2", "川添"), ("3", "三瀬谷"),
             ("4", "荻原"), ("5", "領内"), ("6", "大杉谷")]),
   ("Q0-1", [("1", "65歳未満"), ("2", "65-69歳"), ("3", "70-74歳"),
             ("4", "75-79歳"), ("5", "80-84歳"), ("6", "85-89歳"),
             ("7", "90歳以上")])]

/-- Models the guard `not val_str or str(val_str).lower() in ['nan','','none','null']`. -/
def nanish (v : String) : Bool :=
  v == "" || ["nan", "", "none", "null"].contains (strLower v)

/-- Resolution of one cleaned code: the override table for the axis when the
question id has one (falling back to `不明(<code>)`), otherwise the parsed
choice dictionary (falling back to `選択肢<code>`). -/
def resolveCode (choice_map : List (String × List (String × String)))
    (qid clean_p : String) : String :=
  match area_age_maps.lookup qid with
  | some m => (m.lookup clean_p).getD ("不明(" ++ clean_p ++ ")")
  | none =>
    (((choice_map.lookup qid).getD []).lookup clean_p).getD ("選択肢" ++ clean_p)

/-- Models `get_labels(qid, val_str)` of for_debug.py: the sentinel `無回答`
for nan-ish input, otherwise the comma-join of the per-part resolutions of
the comma-split, stripped, dot-truncated parts. -/
def get_labels (choice_map : List (String × List (String × String)))
    (qid val_str : String) : String :=
  if nanish val_str then "無回答"
  else
    strJoin ","
      (((strSplit val_str ',').map strTrim).map
        (fun p => resolveCode choice_map qid (truncDot p)))

/-- The (axis label, choice label) cell a data row is tallied under. -/
def rowKey (choice_map : List (String × List (String × String)))
    (axisCol qid : String) (row : List (String × String)) : String × String :=
  (get_labels choice_map axisCol (strTrim (rowGet row axisCol)),
   get_labels choice_map qid (strTrim (rowGet row qid)))

/-- Models `counts[axis_label][label] += 1` on the nested defaultdict:
increment the named cell of the association table, appending it at count 1
when absent. -/
def bump (k : String × String) :
    List ((String × String) × Nat) → List ((String × String) × Nat)
  | [] => [(k, 1)]
  | (k', n) :: rest =>
    if k' = k then (k', n + 1) :: rest else (k', n) :: bump k rest

/-- The per-question tally of for_debug.py's main loop: one `bump` per data row. -/
def countsTable (choice_map : List (String × List (String × String)))
    (axisCol qid : String) (rows : List (List (String × String))) :
    List ((String × String) × Nat) :=
  rows.foldl (fun acc row => bump (rowKey choice_map axisCol qid row) acc) []

/-- Sum of all cell counts of a tally table. -/
def cellSum (t : List ((String × String) × Nat)) : Nat := (t.map (·.2)).sum

/-- Strict code-point lexicographic order on character lists (the order
Python string comparison uses). -/
def chLt : List Char → List Char → Bool
  | [], [] => false
  | [], _ :: _ => true
  | _ :: _, [] => false
  | a :: as, b :: bs =>
    if a.toNat < b.toNat then true
    else if b.toNat < a.toNat then false
    else chLt as bs

/-- The string comparator backing Python's `sorted` on the label set. -/
def strLe (a b : String) : Bool := !(chLt b.data a.data)

/-- Inserts a label into an already sorted list of labels. -/
def insertLe (a : String) : List String → List String
  | [] => [a]
  | b :: bs => if strLe a b then a :: b :: bs else b :: insertLe a bs

/-- Models Python `sorted` on the label set (insertion sort: stable, and on
the duplicate-free label set any comparison sort yields the same list). -/
def sortLabels : List String → List String
  | [] => []
  | a :: as => insertLe a (sortLabels as)

/-- Models `all_choices = sorted(list(set)); if "無回答" in all_choices:
remove it and append it at the end`. -/
def orderedChoices (labels : List String) : List String :=
  let sorted := sortLabels labels.dedup
  if sorted.contains "無回答" then sorted.erase "無回答" ++ ["無回答"] else sorted

end ForDebug

/-! ## app_cross_cal2.py — crosstab tool -/

namespace CrossCal

/-- Models `clean_val`: NaN becomes the sentinel `無回答`, other cells are
stringified and truncated at the first dot. -/
def clean_val (v : Option String) : String :=
  match v with
  | none => "無回答"
  | some s => truncDot s

/-- Models `.apply(clean_val).map(lambda x: choices.get(x, x))`. -/
def labelOf (choices : List (String × String)) (v : Option String) : String :=
  let c := clean_val v
  (choices.lookup c).getD c

/-- The labelled (row, column) observation pairs fed to `pd.crosstab`. -/
def labeledPairs (rowChoices colChoices : List (String × String))
    (rows : List (Option String × Option String)) : List (String × String) :=
  rows.map (fun p => (labelOf rowChoices p.1, labelOf colChoices p.2))

/-- Marginal count of one row label (a cell of the crosstab's Total column). -/
def rowTotal (ps : List (String × String)) (ℓ : String) : Nat :=
  (ps.filter (fun p => p.1 == ℓ)).length

/-- One count cell of the crosstab. -/
def cellCount (ps : List (String × String)) (ℓ c : String) : Nat :=
  (ps.filter (fun p => p.1 == ℓ && p.2 == c)).length

/-- The grand-total cell of `pd.crosstab(..., margins=True)`: the sum of the
row marginals over the distinct row labels. -/
def grandTotal (ps : List (String × String)) : Nat :=
  ((ps.map Prod.fst).dedup.map (rowTotal ps)).sum

/-- One cell of `pd.crosstab(..., normalize='index')`, as an exact rational. -/
def pctCell (ps : List (String × String)) (ℓ c : String) : ℚ :=
  (cellCount ps ℓ c : ℚ) / (rowTotal ps ℓ : ℚ)

/-- The sum of one percentage row over the crosstab's column labels. -/
def rowPctSum (ps : List (String × String)) (ℓ : String) : ℚ :=
  ((ps.map Prod.snd).dedup.map (fun c => pctCell ps ℓ c)).sum

/-- Number of input rows with non-null raw values on both axes. -/
def bothPresent (rows : List (Option String × Option String)) : Nat :=
  (rows.filter (fun p => p.1.isSome && p.2.isSome)).length

/-- Models the Python format `f"{x:.1%}"` on an exact rational: the value is
scaled to tenths of a percent, rounded, and printed with one decimal digit
and a trailing percent sign. -/
def fmtPercent (q : ℚ) : String :=
  let n : ℤ := round (q * 1000)
  toString (n / 10) ++ "." ++ toString (n % 10) ++ "%"

/-- One cell of `ct_percent = pd.crosstab(..., normalize='index').applymap(

lambda x: f"{x:.1%}")`: the table retains only the formatted string. -/
def ctPercentCell (rowChoices colChoices : List (String × String))
    (rows : List (Option String × Option String)) (ℓ c : String) : String :=
  fmtPercent (pctCell (labeledPairs rowChoices colChoices rows) ℓ c)

/-- A parsed question definition of `parse_markdown_yaml`. -/
structure QDefC where
  title : String
  choices : List (String × String)
deriving DecidableEq

/-- Models the header scan `re.findall(r'##\s+([\w\-]+)\s+(.*?)\n', content)`
on one line. -/
def headerLineC (line : String) : Option (String × String) :=
  if strStarts line "## " then
    let rest := strTrimL (strDrop line 3)
    let qid := strTakeWhile rest isWordChar
    let after := strDrop rest (strLen qid)
    if qid != "" && strStarts after " " then some (qid, strTrimL after) else none
  else none

/-- The id → title lookup built from the level-2 headings. -/
def headersC (doc : List String) : List (String × String) :=
  doc.filterMap headerLineC

/-- Models `parse_markdown_yaml` of app_cross_cal2.py: for each fenced block
holding a `qid`, emit a definition whose title falls back to the qid itself
when no heading matched (`header_map.get(qid, qid)`). -/
def parse_markdown_yaml (doc : List String) : List (String × QDefC) :=
  (extractBlocks doc).filterMap (fun block =>
    match fieldValue "qid:" isWordChar false block with
    | some qid =>
      some (qid, { title := ((headersC doc).lookup qid).getD qid,
                   choices := parseChoiceLines block })
    | none => none)

end CrossCal

/-! ## tableau_tate.py — tidy-format converter -/

namespace Tate

/-- A parsed question definition of `parse_metadata`. -/
structure QDefT where
  Question : String
  type : String
  choices_map : List (String × String)
deriving DecidableEq

/-- Models the header scan `re.findall(r'^##\s+(Q[\w-]+)\s+(.*)$', ...)` on
one line (the matched text is stripped when the map is built). -/
def headerLineT (line : String) : Option (String × String) :=
  if strStarts line "## " then
    let rest := strTrimL (strDrop line 3)
    let qid := strTakeWhile rest isWordChar
    let after := strDrop rest (strLen qid)
    if strStarts qid "Q" && strStarts after " " then some (qid, strTrim after)
    else none
  else none

/-- The id → question-text lookup built from the level-2 headings. -/
def headersT (doc : List String) : List (String × String) :=
  doc.filterMap headerLineT

/-- Models `parse_metadata` of tableau_tate.py: for each fenced block holding
both a `qid` and a `type`, emit a definition whose question text falls back
to the empty string when no heading matched (`header_map.get(qid, "")`). -/
def parse_metadata (doc : List String) : List (String × QDefT) :=
  (extractBlocks doc).filterMap (fun block =>
    match fieldValue "qid:" isWordChar true block,
          fieldValue "type:" (fun c => c.isAlphanum || c == '_') false block with
    | some qid, some qtype =>
      some (qid, { Question := ((headersT doc).lookup qid).getD "",
                   type := qtype, choices_map := parseChoiceLines block })
    | _, _ => none)

/-- One output row of the tidy long format. -/
structure TidyRec where
  No : String
  qid : String
  Question : String
  type : String
  choices : String
deriving DecidableEq

/-- The records `transform_to_tableau_format` emits for one cell: none when
the question id has no definition, none when the stringified value is
nan-ish (the `continue` branch), one per comma-part for `multi` questions,
and exactly one otherwise; unknown codes fall back to the raw part itself. -/
def cellRecords (q_defs : List (String × QDefT)) (sample_no qid val : String) :
    List TidyRec :=
  match q_defs.lookup qid with
  | none => []
  | some qi =>
    if ["nan", "", "null", "none"].contains (strLower val) then []
    else if qi.type == "multi" then
      ((strSplit val ',').map strTrim).map (fun c_val =>
        { No := sample_no, qid := qid, Question := qi.Question, type := qi.type,
          choices := (qi.choices_map.lookup (truncDot c_val)).getD c_val })
    else
      [{ No := sample_no, qid := qid, Question := qi.Question, type := qi.type,
         choices := (qi.choices_map.lookup (truncDot val)).getD val }]

/-- Models `transform_to_tableau_format`: the first column is the respondent
number; every other column of every row contributes its `cellRecords`. -/
def transform_to_tableau_format (cols : List String)
    (rows : List (List (String × String)))
    (q_defs : List (String × QDefT)) : List TidyRec :=
  match cols with
  | [] => []
  | no_col :: restCols =>
    (rows.map (fun row =>
      (((no_col :: restCols).filter (fun c => c != no_col)).map
        (fun qid => cellRecords q_defs (rowGet row no_col) qid (rowGet row qid))).flatten)).flatten

end Tate

/-! ## opp.py / app2.py — report composer -/

namespace Report

/-- One record of the pre-aggregated AggregateRow CSV (all cells as strings). -/
structure AggRow where
  QuestionID : String
  QuestionText : String
  AnswerType : String
  Attribute : String
  Category : String
  Choice : String
  ValueType : String
  Value : String
deriving DecidableEq

/-- The required-column set checked by `required_cols.issubset(df.columns)`. -/
def required_cols : List String :=
  ["QuestionID", "QuestionText", "AnswerType", "Attribute", "Category",
   "Choice", "ValueType", "Value"]

/-- Models the validation `required_cols.issubset(df.columns)`. -/
def hasRequiredCols (cols : List String) : Bool :=
  required_cols.all (fun c => cols.contains c)

/-- One rendered pipe-table row. -/
def mdRow (cells : List String) : String :=
  "| " ++ strJoin " | " cells ++ " |"

/-- The data columns projected by `dataframe_to_markdown`. -/
def projectCols (attr : String) : List String :=
  if attr == "全体" then ["Choice", "Value"]
  else ["Category", "Choice", "Value"]

/-- The cell values of one projected data row. -/
def projectRow (attr : String) (r : AggRow) : List String :=
  if attr == "全体" then [r.Choice, r.Value]
  else [r.Category, r.Choice, r.Value]

/-- The lines of the rendered markdown table (`df[cols].to_markdown(index=False)`
modelled as a pipe table: header row, separator row, one row per record). -/
def mdTableLines (attr : String) (df : List AggRow) : List String :=
  mdRow (projectCols attr)
    :: mdRow ((projectCols attr).map (fun _ => "---"))
    :: df.map (fun r => mdRow (projectRow attr r))

/-- Models `dataframe_to_markdown` of opp.py: the `データなし` marker on an
empty frame, otherwise a header line followed by the rendered table. -/
def dataframe_to_markdown (df : List AggRow)
    (question_id attr question_text answer_type : String) : String :=
  if df.isEmpty then "### " ++ question_id ++ ", " ++ attr ++ ": データなし\n"
  else
    "### " ++ question_id ++ ", " ++ attr ++ ": " ++ question_text
      ++ " (" ++ answer_type ++ "回答)" ++ "\n"
      ++ strJoin "\n" (mdTableLines attr df) ++ "\n\n"

/-- Models `df[(df['QuestionID'] == qid) & (df['Attribute'] == attr)]`. -/
def subsetFor (df : List AggRow) (qid attr : String) : List AggRow :=
  df.filter (fun r => r.QuestionID == qid && r.Attribute == attr)

/-- The outcome of one request-list line. -/
inductive ReqResult
  | malformed (line : String)
  | noData (qid attr : String)
  | output (md : String)
deriving DecidableEq

/-- Models the per-line body of the request loop: a line whose comma-split
has exactly two fields is looked up (empty subset reported as no-data, else
rendered); any other field count is reported as malformed and skipped. -/
def processLine (df : List AggRow) (line : String) : ReqResult :=
  match strSplit (strTrim line) ',' with
  | [a, b] =>
    let qid := strTrim a
    let attr := strTrim b
    match subsetFor df qid attr with
    | [] => ReqResult.noData qid attr
    | r :: rest =>
      ReqResult.output
        (dataframe_to_markdown (r :: rest) qid attr r.QuestionText r.AnswerType)
  | _ => ReqResult.malformed line

/-- Models the request loop of app2.py / opp.py: each line of the request
list is processed in order, each producing exactly one outcome. -/
def processRequests (df : List AggRow) : List String → List ReqResult
  | [] => []
  | line :: rest => processLine df line :: processRequests df rest

end Report

/-! ## Helper lemmas -/

namespace ForDebug

theorem cellSum_bump (k : String × String) (t : List ((String × String) × Nat)) :
    cellSum (bump k t) = cellSum t + 1 := by
  induction t with
  | nil => rfl
  | cons p rest ih =>
    obtain ⟨k1, n⟩ := p
    by_cases h : k1 = k <;> simp [bump, h, cellSum] at ih ⊢ <;> omega

theorem countsTable_go (cm : List (String × List (String × String)))
    (axisCol qid : String) (rows : List (List (String × String)))
    (acc : List ((String × String) × Nat)) :
    cellSum (rows.foldl (fun a row => bump (rowKey cm axisCol qid row) a) acc) =
      cellSum acc + rows.length := by
  induction rows generalizing acc with
  | nil => simp
  | cons r rest ih =>
    simp only [List.foldl_cons, ih, cellSum_bump, List.length_cons]
    omega

end ForDebug

namespace ForDebug

theorem char_eq_of_toNat (a b : Char) (h : a.toNat = b.toNat) : a = b := by
  have h2 : Char.ofNat a.toNat = Char.ofNat b.toNat := congrArg _ h
  rwa [Char.ofNat_toNat, Char.ofNat_toNat] at h2

theorem chLt_asymm : ∀ x y : List Char, chLt x y = true → chLt y x = false
  | [], [], h => by simp [chLt] at h
  | [], _ :: _, _ => by simp [chLt]
  | _ :: _, [], h => by simp [chLt] at h
  | a :: as, b :: bs, h => by
    simp only [chLt] at h ⊢
    rcases Nat.lt_trichotomy a.toNat b.toNat with hab | hab | hab
    · have h1 : ¬ b.toNat < a.toNat := by omega
      simp [h1, hab]
    · have h1 : ¬ a.toNat < b.toNat := by omega
      have h2 : ¬ b.toNat < a.toNat := by omega
      simp only [h1, h2, if_false] at h ⊢
      exact chLt_asymm as bs h
    · have h1 : ¬ a.toNat < b.toNat := by omega
      simp [h1, hab] at h

theorem chLt_trans : ∀ x y z : List Char,
    chLt x y = true → chLt y z = true → chLt x z = true
  | [], [], _, h, _ => by simp [chLt] at h
  | [], _ :: _, [], _, h => by simp [chLt] at h
  | [], _ :: _, _ :: _, _, _ => by simp [chLt]
  | _ :: _, [], _, h, _ => by simp [chLt] at h
  | _ :: _, _ :: _, [], _, h => by simp [chLt] at h
  | a :: as, b :: bs, c :: cs, h1, h2 => by
    simp only [chLt] at h1 h2 ⊢
    rcases Nat.lt_trichotomy a.toNat b.toNat with hab | hab | hab
    · rcases Nat.lt_trichotomy b.toNat c.toNat with hbc | hbc | hbc
      · have hac : a.toNat < c.toNat := Nat.lt_trans hab hbc
        simp [hac]
      · have hac : a.toNat < c.toNat := hbc ▸ hab
        simp [hac]
      · have n1 : ¬ b.toNat < c.toNat := by omega
        simp [n1, hbc] at h2
    · rcases Nat.lt_trichotomy b.toNat c.toNat with hbc | hbc | hbc
      · have hac : a.toNat < c.toNat := hab ▸ hbc
        simp [hac]
      · have n1 : ¬ a.toNat < b.toNat := by omega
        have n2 : ¬ b.toNat < a.toNat := by omega
        simp only [n1, n2, if_false] at h1
        have n3 : ¬ b.toNat < c.toNat := by omega
        have n4 : ¬ c.toNat < b.toNat := by omega
        simp only [n3, n4, if_false] at h2
        have n5 : ¬ a.toNat < c.toNat := by omega
        have n6 : ¬ c.toNat < a.toNat := by omega
        simp only [n5, n6, if_false]
        exact chLt_trans as bs cs h1 h2
      · have n1 : ¬ b.toNat < c.toNat := by omega
        simp [n1, hbc] at h2
    · have n1 : ¬ a.toNat < b.toNat := by omega
      simp [n1, hab] at h1

theorem chLt_eq_of_not : ∀ x y : List Char,
    chLt x y = false → chLt y x = false → x = y
  | [], [], _, _ => rfl
  | [], _ :: _, h, _ => by simp [chLt] at h
  | _ :: _, [], _, h => by simp [chLt] at h
  | a :: as, b :: bs, h1, h2 => by
    simp only [chLt] at h1 h2
    rcases Nat.lt_trichotomy a.toNat b.toNat with hab | hab | hab
    · simp [hab] at h1
    · have n1 : ¬ a.toNat < b.toNat := by omega
      have n2 : ¬ b.toNat < a.toNat := by omega
      simp only [n1, n2, if_false] at h1 h2
      have hch : a = b := char_eq_of_toNat a b hab
      rw [hch, chLt_eq_of_not as bs h1 h2]
    · simp [hab] at h2

theorem strLe_total (a b : String) : strLe a b = false → strLe b a = true := by
  intro h
  simp only [strLe, Bool.not_eq_false'] at h
  simp only [strLe, Bool.not_eq_true']
  exact chLt_asymm _ _ h

theorem strLe_trans (a b c : String)
    (h1 : strLe a b = true) (h2 : strLe b c = true) : strLe a c = true := by
  simp only [strLe, Bool.not_eq_true'] at h1 h2 ⊢
  by_contra hca
  rw [Bool.not_eq_false] at hca
  by_cases hbc : chLt b.data c.data = true
  · have : chLt b.data a.data = true := chLt_trans _ _ _ hbc hca
    rw [h1] at this
    exact Bool.false_ne_true this
  · rw [Bool.not_eq_true] at hbc
    have heq : c.data = b.data := chLt_eq_of_not _ _ h2 hbc
    rw [heq] at hca
    rw [h1] at hca
    exact Bool.false_ne_true hca

theorem insertLe_perm (a : String) (l : List String) :
    List.Perm (insertLe a l) (a :: l) := by
  induction l with
  | nil => exact List.Perm.refl _
  | cons b bs ih =>
    by_cases h : strLe a b
    · simp [insertLe, h]
    · simp only [insertLe, h, if_false]
      exact (ih.cons b).trans (List.Perm.swap a b bs)

theorem sortLabels_perm (l : List String) : List.Perm (sortLabels l) l := by
  induction l with
  | nil => exact List.Perm.refl _
  | cons a as ih => exact (insertLe_perm a (sortLabels as)).trans (ih.cons a)

theorem insertLe_sorted (a : String) (l : List String)
    (h : l.Pairwise (fun x y => strLe x y = true)) :
    (insertLe a l).Pairwise (fun x y => strLe x y = true) := by
  induction l with
  | nil => simp [insertLe]
  | cons b bs ih =>
    by_cases hab : strLe a b = true
    · simp only [insertLe, hab, if_true]
      refine List.Pairwise.cons ?_ h
      intro x hx
      rcases List.mem_cons.mp hx with rfl | hx2
      · exact hab
      · exact strLe_trans a b x hab ((List.pairwise_cons.mp h).1 x hx2)
    · have hab2 : strLe a b = false := by simpa using hab
      simp only [insertLe, hab2, Bool.false_eq_true, if_false]
      rw [List.pairwise_cons] at h
      rw [List.pairwise_cons]
      refine ⟨?_, ih h.2⟩
      intro x hx
      have hm := (insertLe_perm a bs).mem_iff.mp hx
      rcases List.mem_cons.mp hm with heq | hx2
      · rw [heq]
        exact strLe_total a b hab2
      · exact h.1 x hx2

theorem sortLabels_sorted (l : List String) :
    (sortLabels l).Pairwise (fun x y => strLe x y = true) := by
  induction l with
  | nil => simp [sortLabels]
  | cons a as ih => exact insertLe_sorted a (sortLabels as) ih

end ForDebug

namespace CrossCal

theorem dedup_map_sum {M : Type} [AddCommMonoid M] (l : List String) (f : String → M) :
    (l.dedup.map f).sum = ∑ x ∈ l.toFinset, f x := by
  have h1 : l.dedup.toFinset = l.toFinset :=
    List.toFinset_eq_iff_perm_dedup.mpr (by rw [List.dedup_idem])
  rw [← h1, List.sum_toFinset f (List.nodup_dedup l)]

theorem rowTotal_eq_count (ps : List (String × String)) (ℓ : String) :
    rowTotal ps ℓ = (ps.map Prod.fst).count ℓ := by
  rw [rowTotal, ← List.countP_eq_length_filter, List.count_eq_countP, List.countP_map]
  rfl

theorem grandTotal_eq_length (ps : List (String × String)) :
    grandTotal ps = ps.length := by
  rw [grandTotal]
  have h1 : (ps.map Prod.fst).dedup.map (rowTotal ps) =
      (ps.map Prod.fst).dedup.map (fun x => (ps.map Prod.fst).count x) :=
    List.map_congr_left (fun x _ => rowTotal_eq_count ps x)
  rw [h1, List.sum_map_count_dedup_eq_length, List.length_map]

theorem cellCount_eq_count (ps : List (String × String)) (ℓ c : String) :
    cellCount ps ℓ c = ((ps.filter (fun p => p.1 == ℓ)).map Prod.snd).count c := by
  rw [cellCount, List.count_eq_countP, List.countP_map, ← List.countP_eq_length_filter,
    List.countP_filter]
  apply List.countP_congr
  intro p _
  simp [Bool.and_comm]

theorem rowPctSum_eq_one (ps : List (String × String)) (ℓ : String)
    (h : 0 < rowTotal ps ℓ) : rowPctSum ps ℓ = 1 := by
  classical
  set m := (ps.filter (fun p => p.1 == ℓ)).map Prod.snd with hm
  have hT : m.length = rowTotal ps ℓ := by
    rw [hm, List.length_map, rowTotal]
  have hsub : m.toFinset ⊆ (ps.map Prod.snd).toFinset := by
    intro x hx
    rw [List.mem_toFinset] at hx ⊢
    rw [hm] at hx
    obtain ⟨p, hp, hpx⟩ := List.mem_map.mp hx
    exact List.mem_map.mpr ⟨p, List.mem_of_mem_filter hp, hpx⟩
  have hzero : ∀ x ∈ (ps.map Prod.snd).toFinset, x ∉ m.toFinset →
      ((m.count x : ℚ) / (rowTotal ps ℓ : ℚ)) = 0 := by
    intro x _ hx
    rw [List.mem_toFinset] at hx
    rw [List.count_eq_zero.mpr hx]
    simp
  have hsum : rowPctSum ps ℓ =
      ∑ x ∈ (ps.map Prod.snd).toFinset, (m.count x : ℚ) / (rowTotal ps ℓ : ℚ) := by
    rw [rowPctSum, dedup_map_sum]
    apply Finset.sum_congr rfl
    intro c _
    rw [pctCell, cellCount_eq_count]
  rw [hsum, ← Finset.sum_subset hsub hzero, ← Finset.sum_div]
  rw [← Nat.cast_sum, List.sum_toFinset_count_eq_length, hT]
  have hne : ((rowTotal ps ℓ : ℚ)) ≠ 0 := by
    exact_mod_cast Nat.pos_iff_ne_zero.mp h
  exact div_self hne

theorem fmt_round_123a : round ((123 : ℚ)/1000 * 1000) = 123 := by
  rw [round_eq, show ((123:ℚ)/1000 * 1000 + 1/2) = 247/2 by norm_num, Int.floor_eq_iff]
  constructor <;> norm_num

theorem fmt_round_123b : round ((1231 : ℚ)/10000 * 1000) = 123 := by
  rw [round_eq, show ((1231:ℚ)/10000 * 1000 + 1/2) = 618/5 by norm_num, Int.floor_eq_iff]
  constructor <;> norm_num

theorem fmt_collision :
    fmtPercent (123/1000) = fmtPercent (1231/10000) := by
  unfold fmtPercent
  rw [fmt_round_123a, fmt_round_123b]

end CrossCal

/-! ## Claim theorems -/

theorem takeWhile_of_all {p : Char → Bool} :
    ∀ l : List Char, (∀ c ∈ l, p c = true) → l.takeWhile p = l
  | [], _ => rfl
  | c :: cs, h => by
    rw [List.takeWhile_cons, h c (List.mem_cons_self c cs)]
    simp only [if_true]
    rw [takeWhile_of_all cs (fun x hx => h x (List.mem_cons_of_mem c hx))]

theorem takeWhile_append_stop {p : Char → Bool} :
    ∀ (l : List Char) (d : Char) (rest : List Char),
      (∀ c ∈ l, p c = true) → p d = false →
      (l ++ d :: rest).takeWhile p = l
  | [], d, rest, _, hd => by simp [List.takeWhile_cons, hd]
  | c :: cs, d, rest, h, hd => by
    rw [List.cons_append, List.takeWhile_cons, h c (List.mem_cons_self c cs)]
    simp only [if_true]
    rw [takeWhile_append_stop cs d rest (fun x hx => h x (List.mem_cons_of_mem c hx)) hd]

/-- C1: for nan-ish raw values (`""`, `"nan"`, `"null"`, `"none"`,
case-insensitively) the label resolver `get_labels` returns the sentinel
`無回答`; the Reshaper `transform_to_tableau_format`, however, skips such a
cell entirely (`continue`), emitting no TidyRecord for it rather than a
sentinel record (amended from the claim, which asserted the sentinel record
is emitted). -/
theorem c1_no_answer_sentinel :
    (∀ cm (qid v : String), ForDebug.nanish v = true →
      ForDebug.get_labels cm qid v = "無回答") ∧
    (∀ (q_defs : List (String × Tate.QDefT)) (sample qid val : String),
      ["nan", "", "null", "none"].contains (strLower val) = true →
      Tate.cellRecords q_defs sample qid val = []) := by
  constructor
  · intro cm qid v h
    simp [ForDebug.get_labels, h]
  · intro q_defs sample qid val h
    unfold Tate.cellRecords
    cases hl : q_defs.lookup qid with
    | none => rfl
    | some qi => exact if_pos h

/-- C1 witness: the resolver maps "NaN" to the sentinel, and the Reshaper
emits no record for a "nan" cell of a defined single-answer question. -/
theorem c1_witness :
    ForDebug.get_labels [] "Q1" "NaN" = "無回答" ∧
    Tate.cellRecords [("Q1", ⟨"t", "single", []⟩)] "1" "Q1" "nan" = [] :=
  ⟨c1_no_answer_sentinel.1 [] "Q1" "NaN" (by decide),
   c1_no_answer_sentinel.2 [("Q1", ⟨"t", "single", []⟩)] "1" "Q1" "nan" (by decide)⟩

/-- C1 counterexample: a respondent row whose `Q1` cell is empty produces no
TidyRecord at all — the claimed sentinel record for the empty cell is absent
from the Reshaper's output. -/
theorem c1_counterexample :
    Tate.transform_to_tableau_format ["No", "Q1"] [[("No", "1"), ("Q1", "")]]
      [("Q1", { Question := "t", type := "single", choices_map := [] })] = [] := by
  decide

/-- C2: for a code absent from both the hard-coded override tables and the
parsed choice dictionary, `get_labels`'s resolution synthesizes a placeholder
embedding the code — `不明(<code>)` on an override axis, `選択肢<code>`
otherwise — and a non-empty cell always yields exactly one label per
comma-separated part, so no input value is dropped. -/
theorem c2_placeholder_labels :
    ∀ (cm : List (String × List (String × String))) (qid c : String),
    (∀ m, ForDebug.area_age_maps.lookup qid = some m → m.lookup c = none →
      ForDebug.resolveCode cm qid c = "不明(" ++ c ++ ")") ∧
    (ForDebug.area_age_maps.lookup qid = none →
      ((cm.lookup qid).getD []).lookup c = none →
      ForDebug.resolveCode cm qid c = "選択肢" ++ c) ∧
    (∀ v, ForDebug.nanish v = false →
      ForDebug.get_labels cm qid v =
        strJoin "," (((strSplit v ',').map strTrim).map
          (fun p => ForDebug.resolveCode cm qid (truncDot p))) ∧
      (((strSplit v ',').map strTrim).map
          (fun p => ForDebug.resolveCode cm qid (truncDot p))).length =
        (strSplit v ',').length) := by
  intro cm qid c
  refine ⟨?_, ?_, ?_⟩
  · intro m hm hc
    simp [ForDebug.resolveCode, hm, hc]
  · intro hm hc
    simp [ForDebug.resolveCode, hm, hc]
  · intro v hv
    constructor
    · simp [ForDebug.get_labels, hv]
    · simp

/-- C2 witness: the unknown code 9 on override axis Q0-3 yields `不明(9)`,
and the unknown code 7 on a non-override axis with no dictionary entry
yields `選択肢7`. -/
theorem c2_witness :
    ForDebug.resolveCode [] "Q0-3" "9" = "不明(9)" ∧
    ForDebug.resolveCode [] "QX" "7" = "選択肢7" :=
  ⟨(c2_placeholder_labels [] "Q0-3" "9").1 _ rfl rfl,
   (c2_placeholder_labels [] "QX" "7").2.1 rfl rfl⟩

/-- C5: each comma-part is trimmed and then truncated at the first dot
(`p.split('.')[0]`): a dot-free part is resolved unchanged and a trailing
".0" artifact is stripped, but — amending the claim — any suffix after the
first dot is dropped, so a non-artifact part such as "1.5" is NOT resolved
unchanged (it becomes "1"). -/
theorem c5_part_cleaning :
    (∀ s : String, (∀ c ∈ s.data, c ≠ '.') →
      truncDot s = s ∧ truncDot (s ++ ".0") = s) ∧
    (∀ cm (qid v : String), ForDebug.nanish v = false →
      ForDebug.get_labels cm qid v =
        strJoin "," (((strSplit v ',').map strTrim).map
          (fun p => ForDebug.resolveCode cm qid (truncDot p)))) := by
  constructor
  · intro s h
    obtain ⟨l⟩ := s
    have hall : ∀ c ∈ l, (fun c => c != '.') c = true := by
      intro x hx
      simpa using h x hx
    constructor
    · show String.mk (l.takeWhile (fun c => c != '.')) = String.mk l
      rw [takeWhile_of_all l hall]
    · show String.mk ((l ++ ['.', '0']).takeWhile (fun c => c != '.')) = String.mk l
      rw [takeWhile_append_stop l '.' ['0'] hall (by decide)]
  · intro cm qid v hv
    simp [ForDebug.get_labels, hv]

/-- C5 witness: the dot-free code "1" is cleaned to itself and "1.0" is
cleaned to "1"; a valid two-part cell is resolved part by part. -/
theorem c5_witness :
    (truncDot "1" = "1" ∧ truncDot ("1" ++ ".0") = "1") ∧
    ForDebug.get_labels [] "QX" "7" =
      strJoin "," (((strSplit "7" ',').map strTrim).map
        (fun p => ForDebug.resolveCode [] "QX" (truncDot p))) :=
  ⟨c5_part_cleaning.1 "1" (by decide), c5_part_cleaning.2 [] "QX" "7" (by decide)⟩

/-- C5 counterexample: the part "1.5" is not a ".0" export artifact, yet the
cleaning truncates it to "1", so it is not resolved unchanged: its label is
`選択肢1`, not `選択肢1.5`. -/
theorem c5_counterexample :
    truncDot "1.5" = "1" ∧
    ForDebug.get_labels [] "Q5" "1.5" = "選択肢1" ∧
    ForDebug.get_labels [] "Q5" "1.5" ≠ "選択肢1.5" := by
  refine ⟨by decide, by decide, by decide⟩

/-- C6: a qid parsed from a metadata block with no matching level-2 heading
gets its own id as title in app_cross_cal2's `parse_markdown_yaml`
(`header_map.get(qid, qid)`), but — amending the claim — the empty string as
question text in tableau_tate's `parse_metadata` (`header_map.get(qid, "")`). -/
theorem c6_header_fallback :
    (∀ (doc : List String) (qid : String) (d : CrossCal.QDefC),
      (qid, d) ∈ CrossCal.parse_markdown_yaml doc →
      (CrossCal.headersC doc).lookup qid = none → d.title = qid) ∧
    (∀ (doc : List String) (qid : String) (d : Tate.QDefT),
      (qid, d) ∈ Tate.parse_metadata doc →
      (Tate.headersT doc).lookup qid = none → d.Question = "") := by
  constructor
  · intro doc qid d hmem hn
    rw [CrossCal.parse_markdown_yaml, List.mem_filterMap] at hmem
    obtain ⟨block, _, heq⟩ := hmem
    cases hf : fieldValue "qid:" isWordChar false block with
    | none =>
      rw [hf] at heq
      exact absurd heq (by simp)
    | some q =>
      rw [hf] at heq
      simp only [Option.some.injEq, Prod.mk.injEq] at heq
      obtain ⟨hq, hd⟩ := heq
      subst hq
      rw [← hd]
      simp [hn]
  · intro doc qid d hmem hn
    rw [Tate.parse_metadata, List.mem_filterMap] at hmem
    obtain ⟨block, _, heq⟩ := hmem
    cases hf1 : fieldValue "qid:" isWordChar true block with
    | none =>
      rw [hf1] at heq
      exact absurd heq (by simp)
    | some q =>
      rw [hf1] at heq
      cases hf2 : fieldValue "type:" (fun c => c.isAlphanum || c == '_') false block with
      | none =>
        rw [hf2] at heq
        exact absurd heq (by simp)
      | some qt =>
        rw [hf2] at heq
        simp only [Option.some.injEq, Prod.mk.injEq] at heq
        obtain ⟨hq, hd⟩ := heq
        subst hq
        rw [← hd]
        simp [hn]

/-- C6 witness: a document holding one block for Q7 and no heading at all
yields, in app_cross_cal2's parser, the definition titled "Q7" itself. -/
theorem c6_witness : ("Q7" : String) = "Q7" ∧
    (({ title := "Q7", choices := [] } : CrossCal.QDefC)).title = "Q7" :=
  ⟨rfl, c6_header_fallback.1 ["```yaml", "qid: Q7", "```"] "Q7"
    ⟨"Q7", []⟩ (by decide) (by decide)⟩

/-- C6 counterexample: a document holding one block for Q9 and no heading at
all yields, in tableau_tate's `parse_metadata`, a definition whose question
text is the empty string — not the id "Q9" the claim requires. -/
theorem c6_counterexample :
    ((Tate.parse_metadata ["```yaml", "qid: Q9", "type: single", "```"]).lookup
      "Q9").map Tate.QDefT.Question = some "" ∧ ("" : String) ≠ "Q9" := by
  refine ⟨by decide, by decide⟩

theorem requiredCols_iff (cols : List String) :
    Report.hasRequiredCols cols = true ↔
      ∀ c ∈ Report.required_cols, c ∈ cols := by
  simp [Report.hasRequiredCols, List.all_eq_true, List.contains, List.elem_eq_mem]

/-- C7: the upload is rejected exactly when one of the 8 required columns is
missing; acceptance depends only on column membership, so extra columns and
any column ordering are accepted. -/
theorem c7_required_columns :
    ∀ cols : List String,
    (Report.hasRequiredCols cols = false ↔
      ∃ c ∈ Report.required_cols, c ∉ cols) ∧
    (∀ extra, Report.hasRequiredCols cols = true →
      Report.hasRequiredCols (cols ++ extra) = true) ∧
    (∀ cols2, List.Perm cols cols2 →
      Report.hasRequiredCols cols = Report.hasRequiredCols cols2) := by
  intro cols
  refine ⟨?_, ?_, ?_⟩
  · rw [← Bool.not_eq_true, requiredCols_iff]
    push_neg
    constructor
    · rintro ⟨c, hc, hnc⟩
      exact ⟨c, hc, hnc⟩
    · rintro ⟨c, hc, hnc⟩
      exact ⟨c, hc, hnc⟩
  · intro extra h
    rw [requiredCols_iff] at h ⊢
    intro c hc
    exact List.mem_append_left extra (h c hc)
  · intro cols2 hp
    have hiff : Report.hasRequiredCols cols = true ↔
        Report.hasRequiredCols cols2 = true := by
      rw [requiredCols_iff, requiredCols_iff]
      constructor <;> intro h c hc
      · exact hp.mem_iff.mp (h c hc)
      · exact hp.mem_iff.mpr (h c hc)
    cases h1 : Report.hasRequiredCols cols with
    | false =>
      cases h2 : Report.hasRequiredCols cols2 with
      | false => rfl
      | true => exact absurd (hiff.mpr h2) (by simp [h1])
    | true => exact (hiff.mp h1).symm

/-- C7 witness: the full required set is accepted, stays accepted with an
extra column appended, and acceptance is invariant under reordering. -/
theorem c7_witness :
    Report.hasRequiredCols (Report.required_cols ++ ["Extra"]) = true ∧
    Report.hasRequiredCols ["QuestionID"] =
      Report.hasRequiredCols ["QuestionID"] :=
  ⟨(c7_required_columns Report.required_cols).2.1 ["Extra"] (by decide),
   (c7_required_columns ["QuestionID"]).2.2 ["QuestionID"] (List.Perm.refl _)⟩

/-- C8: a request line whose comma-split does not have exactly two fields is
mapped to a malformed-line warning, and the surrounding lines are processed
exactly as they would be without it — a malformed line never aborts the
remaining lines. -/
theorem c8_malformed_skip :
    ∀ (df : List Report.AggRow) (pre post : List String) (bad : String),
    (strSplit (strTrim bad) ',').length ≠ 2 →
    Report.processLine df bad = Report.ReqResult.malformed bad ∧
    Report.processRequests df (pre ++ bad :: post) =
      Report.processRequests df pre ++
        Report.ReqResult.malformed bad :: Report.processRequests df post := by
  intro df pre post bad h
  have happ : ∀ l1 l2 : List String, Report.processRequests df (l1 ++ l2) =
      Report.processRequests df l1 ++ Report.processRequests df l2 := by
    intro l1 l2
    induction l1 with
    | nil => rfl
    | cons x xs ih => simp [Report.processRequests, ih]
  have hmal : Report.processLine df bad = Report.ReqResult.malformed bad := by
    unfold Report.processLine
    split
    · next a b heq =>
      rw [heq] at h
      simp at h
    · rfl
  refine ⟨hmal, ?_⟩
  rw [happ]
  simp [Report.processRequests, hmal]

/-- C8 witness: in the list ["Q1,全体", "Q1"] the malformed line "Q1" is
reported and skipped while the well-formed line is still processed. -/
theorem c8_witness :
    Report.processLine [] "Q1" = Report.ReqResult.malformed "Q1" ∧
    Report.processRequests [] (["Q1,全体"] ++ "Q1" :: []) =
      Report.processRequests [] ["Q1,全体"] ++
        Report.ReqResult.malformed "Q1" :: Report.processRequests [] [] :=
  c8_malformed_skip [] ["Q1,全体"] [] "Q1" (by decide)

/-- C9: `dataframe_to_markdown` renders the no-data marker on an empty
subset, and otherwise a table whose data columns are exactly Choice, Value
for the Overall attribute 全体 and Category, Choice, Value otherwise, with
one rendered line per record. -/
theorem c9_markdown_table_shape :
    ∀ (df : List Report.AggRow) (qid attr qtext atype : String),
    (df = [] → Report.dataframe_to_markdown df qid attr qtext atype =
      "### " ++ qid ++ ", " ++ attr ++ ": データなし\n") ∧
    (Report.mdTableLines attr df).head? =
      some (Report.mdRow (if attr == "全体" then ["Choice", "Value"]
        else ["Category", "Choice", "Value"])) ∧
    (Report.mdTableLines attr df).length = df.length + 2 ∧
    List.drop 2 (Report.mdTableLines attr df) =
      df.map (fun r => Report.mdRow (if attr == "全体" then [r.Choice, r.Value]
        else [r.Category, r.Choice, r.Value])) := by
  intro df qid attr qtext atype
  refine ⟨?_, rfl, ?_, rfl⟩
  · intro h
    subst h
    rfl
  · simp [Report.mdTableLines]

/-- C9 witness: the scenario-B frame (two Overall rows for Q1) renders a
table of exactly two data rows under the Choice, Value header, and an empty
frame renders the no-data marker. -/
theorem c9_witness :
    Report.dataframe_to_markdown [] "Q1" "全体" "t" "Single" =
      "### Q1, 全体: データなし\n" ∧
    (Report.mdTableLines "全体"
      [⟨"Q1", "満足度", "Single", "全体", "全体", "満足", "回答数", "400"⟩,
       ⟨"Q1", "満足度", "Single", "全体", "全体", "不満", "回答数", "100"⟩]).length =
      2 + 2 :=
  ⟨(c9_markdown_table_shape [] "Q1" "全体" "t" "Single").1 rfl,
   (c9_markdown_table_shape
      [⟨"Q1", "満足度", "Single", "全体", "全体", "満足", "回答数", "400"⟩,
       ⟨"Q1", "満足度", "Single", "全体", "全体", "不満", "回答数", "100"⟩]
      "Q1" "全体" "t" "Single").2.2.1⟩

/-- C10: every data row bumps exactly one (axis label, choice label) cell —
missing values resolve to the 無回答 sentinel and are tallied too — so the
cell counts of each per-question table sum to the number of data rows; the
column ordering sorts the label set and, when 無回答 is present, moves it
after all the sorted choice labels. -/
theorem c10_tally_and_order :
    (∀ (cm : List (String × List (String × String))) (axisCol qid : String)
        (rows : List (List (String × String))),
      ForDebug.cellSum (ForDebug.countsTable cm axisCol qid rows) = rows.length) ∧
    (∀ labels : List String,
      (ForDebug.sortLabels labels).Pairwise (fun a b => ForDebug.strLe a b = true)) ∧
    (∀ labels : List String, "無回答" ∈ labels →
      ForDebug.orderedChoices labels =
        (ForDebug.sortLabels labels.dedup).filter (· != "無回答") ++ ["無回答"]) := by
  refine ⟨?_, ForDebug.sortLabels_sorted, ?_⟩
  · intro cm axisCol qid rows
    rw [ForDebug.countsTable, ForDebug.countsTable_go]
    simp [ForDebug.cellSum]
  · intro labels hmem
    have hmem2 : "無回答" ∈ ForDebug.sortLabels labels.dedup :=
      (ForDebug.sortLabels_perm labels.dedup).mem_iff.mpr (List.mem_dedup.mpr hmem)
    have hnd : (ForDebug.sortLabels labels.dedup).Nodup :=
      (ForDebug.sortLabels_perm labels.dedup).nodup_iff.mpr (List.nodup_dedup labels)
    rw [ForDebug.orderedChoices]
    rw [if_pos (List.elem_eq_true_of_mem hmem2)]
    rw [hnd.erase_eq_filter]

/-- C10 witness: a single data row lands in exactly one cell, and the label
set b, 無回答, a is ordered as the sorted non-sentinel labels followed by
無回答 last. -/
theorem c10_witness :
    ForDebug.cellSum (ForDebug.countsTable [] "Q0-3" "Q5"
      [[("Q0-3", "1"), ("Q5", "2")]]) = 1 ∧
    ForDebug.orderedChoices ["b", "無回答", "a"] =
      (ForDebug.sortLabels (["b", "無回答", "a"].dedup)).filter (· != "無回答")
        ++ ["無回答"] :=
  ⟨c10_tally_and_order.1 [] "Q0-3" "Q5" [[("Q0-3", "1"), ("Q5", "2")]],
   c10_tally_and_order.2.2 ["b", "無回答", "a"] (by decide)⟩

/-- C3 (amended): the grand-total cell of the counts crosstab equals the
TOTAL number of input rows — a null axis cell is labelled 無回答 and tallied
like any label, so rows with nulls are counted (the claim's "non-null on
both axes" count fails) — and every percentage row whose count total is
positive sums to exactly 1 in exact arithmetic. -/
theorem c3_crosstab_totals :
    ∀ (rc cc : List (String × String))
      (rows : List (Option String × Option String)),
    CrossCal.grandTotal (CrossCal.labeledPairs rc cc rows) = rows.length ∧
    ∀ ℓ, 0 < CrossCal.rowTotal (CrossCal.labeledPairs rc cc rows) ℓ →
      CrossCal.rowPctSum (CrossCal.labeledPairs rc cc rows) ℓ = 1 := by
  intro rc cc rows
  constructor
  · rw [CrossCal.grandTotal_eq_length, CrossCal.labeledPairs, List.length_map]
  · intro ℓ h
    exact CrossCal.rowPctSum_eq_one _ ℓ h

/-- C3 witness: one fully answered row yields grand total 1 and a percentage
row summing to 1. -/
theorem c3_witness :
    CrossCal.grandTotal (CrossCal.labeledPairs [] [] [(some "1", some "2")]) = 1 ∧
    CrossCal.rowPctSum (CrossCal.labeledPairs [] [] [(some "1", some "2")]) "1" = 1 :=
  ⟨(c3_crosstab_totals [] [] [(some "1", some "2")]).1,
   (c3_crosstab_totals [] [] [(some "1", some "2")]).2 "1" (by decide)⟩

/-- C3 counterexample: with one input row whose row-axis cell is null, the
crosstab grand total is 1, yet the number of respondents with non-null
values on both axes is 0 — the claimed equality fails because `clean_val`
turns nulls into the tallied label 無回答. -/
theorem c3_counterexample :
    CrossCal.grandTotal (CrossCal.labeledPairs [] [] [(none, some "1")]) = 1 ∧
    CrossCal.bothPresent [(none, some "1")] = 0 ∧ (1 : Nat) ≠ 0 := by
  refine ⟨by decide, by decide, by decide⟩

/-- C4 (amended): the percentage table is row-normalized
(cell = count / row total) and each cell is formatted as a nonnegative
integer part, one decimal digit and a trailing "%"; but after `applymap` the
table holds only these formatted strings, and no retrieval function can
recover the underlying numeric value from a formatted cell (the formatting
is many-to-one), contrary to the claim that it remains retrievable. -/
theorem c4_percent_formatting :
    (∀ q : ℚ, 0 ≤ q →
      CrossCal.fmtPercent q =
        toString (round (q * 1000) / 10) ++ "." ++
          toString (round (q * 1000) % 10) ++ "%" ∧
      0 ≤ round (q * 1000) / 10 ∧
      0 ≤ round (q * 1000) % 10 ∧ round (q * 1000) % 10 < 10) ∧
    (¬ ∃ g : String → ℚ, ∀ q : ℚ, g (CrossCal.fmtPercent q) = q) ∧
    (∀ rc cc rows ℓ c, CrossCal.ctPercentCell rc cc rows ℓ c =
      CrossCal.fmtPercent
        (CrossCal.pctCell (CrossCal.labeledPairs rc cc rows) ℓ c)) := by
  refine ⟨?_, ?_, fun _ _ _ _ _ => rfl⟩
  · intro q hq
    have hn : 0 ≤ round (q * 1000) := by
      rw [round_eq]
      refine Int.floor_nonneg.mpr ?_
      have : (0 : ℚ) ≤ q * 1000 := by positivity
      linarith
    exact ⟨rfl, Int.ediv_nonneg hn (by norm_num),
      Int.emod_nonneg _ (by norm_num), Int.emod_lt_of_pos _ (by norm_num)⟩
  · rintro ⟨g, hg⟩
    have h1 := hg (123/1000)
    have h2 := hg (1231/10000)
    rw [CrossCal.fmt_collision] at h1
    rw [h2] at h1
    norm_num at h1

/-- C4 witness: the format equation and digit bound instantiated at the
concrete percentage 123/1000. -/
theorem c4_witness :
    CrossCal.fmtPercent (123/1000) =
      toString (round ((123/1000 : ℚ) * 1000) / 10) ++ "." ++
        toString (round ((123/1000 : ℚ) * 1000) % 10) ++ "%" ∧
    round ((123/1000 : ℚ) * 1000) % 10 < 10 :=
  ⟨(c4_percent_formatting.1 (123/1000) (by norm_num)).1,
   (c4_percent_formatting.1 (123/1000) (by norm_num)).2.2.2⟩

/-- C4 counterexample: two different underlying numeric percentage values
format to the same "12.3%" cell, so the numeric value is not retrievable
from the formatted table the code keeps. -/
theorem c4_counterexample :
    CrossCal.fmtPercent (123/1000) = CrossCal.fmtPercent (1231/10000) ∧
    (123/1000 : ℚ) ≠ 1231/10000 :=
  ⟨CrossCal.fmt_collision, by norm_num⟩

end EnqTool
